import Mathlib

/-!
Formal model of the clara-apps Netlify functions.

The repository consists of three stateless HTTP handlers:
- `netlify/functions/api.js` (router + robust body normalizer `parsePayload` +
  forwarder `proxyToFlow`),
- `netlify/functions/flow-proxy.js` (handler with an inline body normalizer and
  envelope-building forwarder),
- an unnamed login function (`src/unnamed/part_000`) that forwards a JSON body
  and rejects unparseable bodies with a 400.

The JavaScript runtime primitives the source leans on (`JSON.parse`,
`JSON.stringify`, `URLSearchParams`, `String.prototype.trim`, Node's base64
decoding) are embedded below as executable Lean functions.  JSON numbers are
carried as exact decimals (mantissa × 10^exponent); floating-point rounding
and JS float formatting are outside the embedding and are not relied on by
any theorem.  The network effect of `fetch` is reified: each handler takes a
`FetchOutcome` describing how the single upstream call settled, and returns
both the request it transmitted (`sent`) and the HTTP response it produced.
CORS/response-header construction is glue (spec §1) and is not modelled.
-/

/-! ## JSON value model -/

mutual
inductive JVal where
  | null
  | bool (b : Bool)
  | num (m : Int) (e : Int)
  | str (s : String)
  | arr (xs : JArr)
  | obj (fs : JObj)

inductive JArr where
  | nil
  | cons (hd : JVal) (tl : JArr)

inductive JObj where
  | nil
  | cons (k : String) (v : JVal) (tl : JObj)
end

def JArr.push : JArr → JVal → JArr
  | .nil, v => .cons v .nil
  | .cons h t, v => .cons h (t.push v)

/-- Whether the object already has a field named `k`. -/
def JObj.hasKey : JObj → String → Bool
  | .nil, _ => false
  | .cons k _ t, k' => k = k' || t.hasKey k'

/-- JavaScript `obj[k] = v`: overwrite in place if the key exists (keeping its
position), otherwise append. -/
def JObj.assign : JObj → String → JVal → JObj
  | .nil, k, v => .cons k v .nil
  | .cons k0 v0 t, k, v => if k0 = k then .cons k0 v t else .cons k0 v0 (t.assign k v)

def JObj.ofList : List (String × JVal) → JObj
  | [] => .nil
  | (k, v) :: t => .cons k v (JObj.ofList t)

/-- Convenience constructor for object literals, in insertion order. -/
def JVal.mkObj (l : List (String × JVal)) : JVal := .obj (JObj.ofList l)

def JVal.isStr : JVal → Bool
  | .str _ => true
  | _ => false

/-- JavaScript `x ?? {}` applied to a parsed JSON value: only `null` is
replaced by the empty object. -/
def jsOrEmptyObj : JVal → JVal
  | .null => .obj .nil
  | v => v

/-! ## JSON.stringify -/

def hexDigit (n : Nat) : Char :=
  if n < 10 then Char.ofNat (48 + n) else Char.ofNat (87 + n)

/-- Escape one character the way `JSON.stringify` quotes string contents. -/
def jsonEscapeChar (c : Char) : List Char :=
  if c = '"' then ['\\', '"']
  else if c = '\\' then ['\\', '\\']
  else if c = Char.ofNat 0x8 then ['\\', 'b']
  else if c = '\t' then ['\\', 't']
  else if c = '\n' then ['\\', 'n']
  else if c = Char.ofNat 0xC then ['\\', 'f']
  else if c = Char.ofNat 0xD then ['\\', 'r']
  else if c.toNat < 0x20 then
    ['\\', 'u', '0', '0', hexDigit (c.toNat / 16), hexDigit (c.toNat % 16)]
  else [c]

def jsonQuote (s : String) : String :=
  "\"" ++ String.mk ((s.toList.map jsonEscapeChar).flatten) ++ "\""

/-- Decimal rendering of an exact JSON number.  Integer-valued numbers (the
only ones the repository's data ever contains) render exactly as JavaScript
renders them; scientific notation is used otherwise. -/
def renderNum (m e : Int) : String :=
  if e = 0 then toString m else toString m ++ "e" ++ toString e

mutual
def JVal.stringify : JVal → String
  | .null => "null"
  | .bool true => "true"
  | .bool false => "false"
  | .num m e => renderNum m e
  | .str s => jsonQuote s
  | .arr xs => "[" ++ JArr.stringifyItems xs true ++ "]"
  | .obj fs => "\x7b" ++ JObj.stringifyItems fs true ++ "\x7d"

def JArr.stringifyItems : JArr → Bool → String
  | .nil, _ => ""
  | .cons v t, first =>
      (if first then "" else ",") ++ JVal.stringify v ++ JArr.stringifyItems t false

def JObj.stringifyItems : JObj → Bool → String
  | .nil, _ => ""
  | .cons k v t, first =>
      (if first then "" else ",") ++ jsonQuote k ++ ":" ++ JVal.stringify v
        ++ JObj.stringifyItems t false
end

/-! ## JavaScript string primitives -/

/-- Characters removed by `String.prototype.trim` (ECMAScript WhiteSpace and
LineTerminator, including U+FEFF). -/
def jsWsChar (c : Char) : Bool :=
  let n := c.toNat
  n = 0x9 || n = 0xA || n = 0xB || n = 0xC || n = 0xD || n = 0x20 ||
  n = 0xA0 || n = 0x1680 || (0x2000 ≤ n && n ≤ 0x200A) ||
  n = 0x2028 || n = 0x2029 || n = 0x202F || n = 0x205F || n = 0x3000 || n = 0xFEFF

def jsTrimL (l : List Char) : List Char :=
  ((l.dropWhile jsWsChar).reverse.dropWhile jsWsChar).reverse

def jsTrim (s : String) : String := String.mk (jsTrimL s.toList)

def hasPfxCh : List Char → List Char → Bool
  | [], _ => true
  | _ :: _, [] => false
  | p :: ps, c :: cs => p = c && hasPfxCh ps cs

def containsCh (pat : List Char) : List Char → Bool
  | [] => hasPfxCh pat []
  | c :: r => hasPfxCh pat (c :: r) || containsCh pat r

/-- JavaScript `s.includes(pat)`. -/
def strContains (s pat : String) : Bool := containsCh pat.toList s.toList

/-- JavaScript `s.startsWith(pat)`. -/
def jsStartsWith (s pat : String) : Bool := hasPfxCh pat.toList s.toList

/-- JavaScript `s.slice(n)` for `n ≥ 0`. -/
def jsDrop (s : String) (n : Nat) : String := String.mk (s.toList.drop n)

/-- ASCII lowering; the strings the handlers lower-case are ASCII header
names/values. -/
def jsToLower (s : String) : String := String.mk (s.toList.map Char.toLower)

/-- JavaScript `s.split(";")[0]`. -/
def beforeSemi (s : String) : String := String.mk (s.toList.takeWhile (· ≠ ';'))

/-! ## Bytes: UTF-8 and percent decoding (URLSearchParams, Buffer) -/

def replChar : Char := Char.ofNat 0xFFFD

def utf8EncodeChar (c : Char) : List Nat :=
  let n := c.toNat
  if n < 0x80 then [n]
  else if n < 0x800 then [0xC0 + n / 64, 0x80 + n % 64]
  else if n < 0x10000 then [0xE0 + n / 4096, 0x80 + (n / 64) % 64, 0x80 + n % 64]
  else [0xF0 + n / 262144, 0x80 + (n / 4096) % 64, 0x80 + (n / 64) % 64, 0x80 + n % 64]

def utf8Encode (l : List Char) : List Nat := (l.map utf8EncodeChar).flatten

def isContByte (b : Nat) : Bool := 0x80 ≤ b && b < 0xC0

/-- UTF-8 decoding with U+FFFD replacement on malformed sequences, as the
WHATWG decoders used by `URLSearchParams` and `Buffer.toString("utf-8")`
behave.  Fuel-driven for structural termination; one byte is consumed per
step at minimum, so `length + 1` fuel always suffices. -/
def utf8DecodeGo : Nat → List Nat → List Char
  | 0, _ => []
  | _ + 1, [] => []
  | f + 1, b :: r =>
    if b < 0x80 then Char.ofNat b :: utf8DecodeGo f r
    else if b < 0xC2 then replChar :: utf8DecodeGo f r
    else if b < 0xE0 then
      match r with
      | b2 :: r2 =>
        if isContByte b2 then Char.ofNat ((b - 0xC0) * 64 + (b2 - 0x80)) :: utf8DecodeGo f r2
        else replChar :: utf8DecodeGo f r
      | [] => [replChar]
    else if b < 0xF0 then
      match r with
      | b2 :: b3 :: r3 =>
        if isContByte b2 && isContByte b3 then
          let n := (b - 0xE0) * 4096 + (b2 - 0x80) * 64 + (b3 - 0x80)
          if n < 0x800 || (0xD800 ≤ n && n ≤ 0xDFFF) then replChar :: utf8DecodeGo f r3
          else Char.ofNat n :: utf8DecodeGo f r3
        else replChar :: utf8DecodeGo f r
      | _ => [replChar]
    else if b < 0xF5 then
      match r with
      | b2 :: b3 :: b4 :: r4 =>
        if isContByte b2 && isContByte b3 && isContByte b4 then
          let n := (b - 0xF0) * 262144 + (b2 - 0x80) * 4096 + (b3 - 0x80) * 64 + (b4 - 0x80)
          if n < 0x10000 || 0x10FFFF < n then replChar :: utf8DecodeGo f r4
          else Char.ofNat n :: utf8DecodeGo f r4
        else replChar :: utf8DecodeGo f r
      | _ => [replChar]
    else replChar :: utf8DecodeGo f r

def utf8Decode (l : List Nat) : List Char := utf8DecodeGo (l.length + 1) l

def hexVal (c : Char) : Option Nat :=
  if '0' ≤ c && c ≤ '9' then some (c.toNat - 48)
  else if 'a' ≤ c && c ≤ 'f' then some (c.toNat - 87)
  else if 'A' ≤ c && c ≤ 'F' then some (c.toNat - 55)
  else none

/-- Percent-decoding on bytes: `%XY` with two hex digits becomes one byte,
anything else passes through (URLSearchParams never throws on bad input). -/
def pctDecodeBytes : List Nat → List Nat
  | 0x25 :: a :: b :: r =>
    match hexVal (Char.ofNat a), hexVal (Char.ofNat b) with
    | some h1, some h2 => (16 * h1 + h2) :: pctDecodeBytes r
    | _, _ => 0x25 :: pctDecodeBytes (a :: b :: r)
  | b :: r => b :: pctDecodeBytes r
  | [] => []

/-- One application/x-www-form-urlencoded component: `+` to space, then
percent-decode bytes, then UTF-8 decode. -/
def formDecode (l : List Char) : String :=
  String.mk (utf8Decode (pctDecodeBytes (utf8Encode (l.map fun c => if c = '+' then ' ' else c))))

def splitAmpGo (cur : List Char) : List Char → List (List Char)
  | [] => [cur.reverse]
  | '&' :: r => cur.reverse :: splitAmpGo [] r
  | c :: r => splitAmpGo (c :: cur) r

/-- Entries of `new URLSearchParams(s)` in order: split on `&`, drop empty
pieces, split each piece at its first `=`, decode names and values. -/
def formEntries (s : String) : List (String × String) :=
  (splitAmpGo [] s.toList).filterMap fun piece =>
    if piece.isEmpty then none
    else
      let nv := piece.span (· ≠ '=')
      some (formDecode nv.1, formDecode (nv.2.drop 1))

/-! ## Node base64 decoding (forgiving) -/

def b64Val (c : Char) : Option Nat :=
  if 'A' ≤ c && c ≤ 'Z' then some (c.toNat - 65)
  else if 'a' ≤ c && c ≤ 'z' then some (c.toNat - 71)
  else if '0' ≤ c && c ≤ '9' then some (c.toNat + 4)
  else if c = '+' || c = '-' then some 62
  else if c = '/' || c = '_' then some 63
  else none

def sextetsToBytes : List Nat → List Nat
  | a :: b :: c :: d :: r => (a * 4 + b / 16) :: ((b % 16) * 16 + c / 4) :: ((c % 4) * 64 + d) :: sextetsToBytes r
  | [a, b, c] => [a * 4 + b / 16, (b % 16) * 16 + c / 4]
  | [a, b] => [a * 4 + b / 16]
  | _ => []

/-- Buffer.from(s, "base64").toString("utf-8"): ignore non-alphabet characters
(including padding), regroup sextets into bytes, UTF-8 decode. -/
def base64DecodeUtf8 (s : String) : String :=
  String.mk (utf8Decode (sextetsToBytes (s.toList.filterMap b64Val)))

/-! ## Strict JSON parsing (the embedding of `JSON.parse`) -/

def jsonWsChar (c : Char) : Bool := c = ' ' || c = '\t' || c = '\n' || c = '\r'

def skipWsJ (l : List Char) : List Char := l.dropWhile jsonWsChar

def isDigitChar (c : Char) : Bool := '0' ≤ c && c ≤ '9'

def natOfDigits (l : List Char) : Nat := l.foldl (fun a c => a * 10 + (c.toNat - 48)) 0

/-- Parse a JSON number per the strict grammar (`-? int frac? exp?`, no
leading zeros) into an exact decimal `(mantissa, exp10)`. -/
def parseNumber (l : List Char) : Except String ((Int × Int) × List Char) :=
  let (neg, l1) := match l with
    | '-' :: r => (true, r)
    | _ => (false, l)
  let intDigits := l1.takeWhile isDigitChar
  let r1 := l1.drop intDigits.length
  if intDigits.isEmpty then .error "SyntaxError: No number after minus sign in JSON"
  else if intDigits.length ≥ 2 && intDigits.head? = some '0' then
    .error "SyntaxError: Unexpected number in JSON"
  else
    let (fracDigits, r2) := match r1 with
      | '.' :: rf => (rf.takeWhile isDigitChar, rf.drop (rf.takeWhile isDigitChar).length)
      | _ => ([], r1)
    if r1.head? = some '.' && fracDigits.isEmpty then
      .error "SyntaxError: Unterminated fractional number in JSON"
    else
      let expRes : Option ((Bool × List Char) × List Char) := match r2 with
        | 'e' :: '-' :: re => some ((true, re.takeWhile isDigitChar), re.drop (re.takeWhile isDigitChar).length)
        | 'E' :: '-' :: re => some ((true, re.takeWhile isDigitChar), re.drop (re.takeWhile isDigitChar).length)
        | 'e' :: '+' :: re => some ((false, re.takeWhile isDigitChar), re.drop (re.takeWhile isDigitChar).length)
        | 'E' :: '+' :: re => some ((false, re.takeWhile isDigitChar), re.drop (re.takeWhile isDigitChar).length)
        | 'e' :: re => some ((false, re.takeWhile isDigitChar), re.drop (re.takeWhile isDigitChar).length)
        | 'E' :: re => some ((false, re.takeWhile isDigitChar), re.drop (re.takeWhile isDigitChar).length)
        | _ => none
      let m0 : Nat := natOfDigits (intDigits ++ fracDigits)
      let m : Int := if neg then -(m0 : Int) else (m0 : Int)
      match expRes with
      | none => .ok ((m, -(fracDigits.length : Int)), r2)
      | some ((eneg, eDigits), r3) =>
        if eDigits.isEmpty then .error "SyntaxError: Exponent part is missing a number in JSON"
        else
          let ev : Int := if eneg then -(natOfDigits eDigits : Int) else (natOfDigits eDigits : Int)
          .ok ((m, ev - (fracDigits.length : Int)), r3)

/-- Parse the body of a JSON string literal (after the opening quote),
handling the standard escapes and `\uXXXX` with surrogate pairing.  A lone
surrogate (legal for `JSON.parse`, unrepresentable as a Lean scalar value)
decodes to U+FFFD. -/
def parseJStrGo : Nat → List Char → List Char → Except String (String × List Char)
  | 0, _, _ => .error "SyntaxError: Unterminated string in JSON"
  | _ + 1, _, [] => .error "SyntaxError: Unterminated string in JSON"
  | _ + 1, acc, '"' :: r => .ok (String.mk acc.reverse, r)
  | f + 1, acc, '\\' :: '"' :: r => parseJStrGo f ('"' :: acc) r
  | f + 1, acc, '\\' :: '\\' :: r => parseJStrGo f ('\\' :: acc) r
  | f + 1, acc, '\\' :: '/' :: r => parseJStrGo f ('/' :: acc) r
  | f + 1, acc, '\\' :: 'b' :: r => parseJStrGo f (Char.ofNat 0x8 :: acc) r
  | f + 1, acc, '\\' :: 'f' :: r => parseJStrGo f (Char.ofNat 0xC :: acc) r
  | f + 1, acc, '\\' :: 'n' :: r => parseJStrGo f ('\n' :: acc) r
  | f + 1, acc, '\\' :: 'r' :: r => parseJStrGo f (Char.ofNat 0xD :: acc) r
  | f + 1, acc, '\\' :: 't' :: r => parseJStrGo f ('\t' :: acc) r
  | f + 1, acc, '\\' :: 'u' :: a :: b :: c :: d :: r =>
    (match hexVal a, hexVal b, hexVal c, hexVal d with
     | some h1, some h2, some h3, some h4 =>
       let n := ((h1 * 16 + h2) * 16 + h3) * 16 + h4
       if 0xD800 ≤ n && n ≤ 0xDBFF then
         match r with
         | '\\' :: 'u' :: a2 :: b2 :: c2 :: d2 :: r2 =>
           (match hexVal a2, hexVal b2, hexVal c2, hexVal d2 with
            | some g1, some g2, some g3, some g4 =>
              let n2 := ((g1 * 16 + g2) * 16 + g3) * 16 + g4
              if 0xDC00 ≤ n2 && n2 ≤ 0xDFFF then
                parseJStrGo f (Char.ofNat (0x10000 + (n - 0xD800) * 1024 + (n2 - 0xDC00)) :: acc) r2
              else parseJStrGo f (replChar :: acc) (a2 :: b2 :: c2 :: d2 :: r2)
            | _, _, _, _ => parseJStrGo f (replChar :: acc) (a2 :: b2 :: c2 :: d2 :: r2))
         | _ => parseJStrGo f (replChar :: acc) r
       else if 0xDC00 ≤ n && n ≤ 0xDFFF then parseJStrGo f (replChar :: acc) r
       else parseJStrGo f (Char.ofNat n :: acc) r
     | _, _, _, _ => .error "SyntaxError: Bad Unicode escape in JSON")
  | _ + 1, _, '\\' :: _ => .error "SyntaxError: Bad escaped character in JSON"
  | f + 1, acc, c :: r =>
    if c.toNat < 0x20 then .error "SyntaxError: Bad control character in JSON string literal"
    else parseJStrGo f (c :: acc) r

/-- Parse the remainder of a JSON string literal starting after the opening
quote, with enough fuel for the whole input. -/
def parseJStr (l : List Char) : Except String (String × List Char) :=
  parseJStrGo (l.length + 1) [] l

def lbraceChar : Char := Char.ofNat 123

def rbraceChar : Char := Char.ofNat 125

/-- Parsing mode for `pstep`: either start a value, or continue a partly
parsed array/object. -/
inductive PMode where
  | value
  | arrRest (acc : JArr)
  | objKey (acc : JObj)
  | objRest (acc : JObj)

/-- One strict JSON value, by recursion on fuel.  Between any two nested
calls at least one input character has been consumed, so the recursion depth
is bounded by the input length and the fuel supplied by `jsonParse` never
runs out on real input. -/
def pstep : Nat → PMode → List Char → Except String (JVal × List Char)
  | 0, _, _ => .error "SyntaxError: JSON input too deeply nested"
  | _ + 1, .value, [] => .error "SyntaxError: Unexpected end of JSON input"
  | _ + 1, .value, 'n' :: 'u' :: 'l' :: 'l' :: r => .ok (.null, r)
  | _ + 1, .value, 't' :: 'r' :: 'u' :: 'e' :: r => .ok (.bool true, r)
  | _ + 1, .value, 'f' :: 'a' :: 'l' :: 's' :: 'e' :: r => .ok (.bool false, r)
  | _ + 1, .value, '"' :: r =>
    (match parseJStr r with
     | .ok (s, r2) => .ok (.str s, r2)
     | .error e => .error e)
  | f + 1, .value, '[' :: r =>
    (match skipWsJ r with
     | ']' :: r2 => .ok (.arr .nil, r2)
     | r1 =>
       match pstep f .value r1 with
       | .ok (v, r2) => pstep f (.arrRest (JArr.cons v .nil)) (skipWsJ r2)
       | .error e => .error e)
  | f + 1, .value, c :: r =>
    if c = lbraceChar then
      (match skipWsJ r with
       | r1 =>
         if r1.head? = some rbraceChar then .ok (.obj .nil, r1.drop 1)
         else pstep f (.objKey .nil) r1)
    else if c = '-' || isDigitChar c then
      (match parseNumber (c :: r) with
       | .ok ((m, e), r2) => .ok (.num m e, r2)
       | .error e => .error e)
    else .error "SyntaxError: Unexpected token in JSON"
  | _ + 1, .arrRest _, [] => .error "SyntaxError: Unexpected end of JSON input"
  | f + 1, .arrRest acc, ',' :: r =>
    (match pstep f .value (skipWsJ r) with
     | .ok (v, r2) => pstep f (.arrRest (acc.push v)) (skipWsJ r2)
     | .error e => .error e)
  | _ + 1, .arrRest acc, ']' :: r => .ok (.arr acc, r)
  | _ + 1, .arrRest _, _ => .error "SyntaxError: Expected comma or bracket after JSON array element"
  | f + 1, .objKey acc, '"' :: r =>
    (match parseJStr r with
     | .ok (k, r2) =>
       (match skipWsJ r2 with
        | ':' :: r3 =>
          (match pstep f .value (skipWsJ r3) with
           | .ok (v, r4) => pstep f (.objRest (acc.assign k v)) (skipWsJ r4)
           | .error e => .error e)
        | _ => .error "SyntaxError: Expected colon after JSON property name")
     | .error e => .error e)
  | _ + 1, .objKey _, _ => .error "SyntaxError: Expected string property name in JSON object"
  | _ + 1, .objRest _, [] => .error "SyntaxError: Unexpected end of JSON input"
  | f + 1, .objRest acc, ',' :: r => pstep f (.objKey acc) (skipWsJ r)
  | _ + 1, .objRest acc, c :: r =>
    if c = rbraceChar then .ok (.obj acc, r)
    else .error "SyntaxError: Expected comma or brace after JSON property value"

/-- Strict JSON parsing: the embedding of `JSON.parse`.  Failure carries a
`SyntaxError: ...` description, matching `String(e)` on the JS side in shape
(exact engine wording is host-specific and no theorem depends on it). -/
def jsonParse (s : String) : Except String JVal :=
  match pstep (2 * s.toList.length + 8) .value (skipWsJ s.toList) with
  | .ok (v, rest) =>
    if (skipWsJ rest).isEmpty then .ok v
    else .error "SyntaxError: Unexpected non-whitespace character after JSON data"
  | .error e => .error e

/-! ## Transport-layer data model -/

/-- Inbound request as Netlify delivers it.  String fields that JavaScript
may see as `undefined` are modelled as `""` (both are falsy and every use
site guards with `|| default` or `?.`); `queryDebug` models
`queryStringParameters?.debug === "1"`. -/
structure Event where
  httpMethod : String
  path : String
  headers : List (String × String)
  queryDebug : Bool
  body : String
  isBase64Encoded : Bool

/-- Process environment; `""` models an unset variable (falsy for
`process.env.X || default` and `Boolean(process.env.X)`). -/
structure Env where
  FLOW_BASE_URL : String
  FLOW_API_KEY : String
  N8N_WEBHOOK_URL : String

/-- Result of the robust body normalization: `parsePayload` in api.js, the
inline fallback chain in flow-proxy.js (spec §3 ParseOutcome). -/
structure ParseOutcome where
  payload : JVal
  parsedAs : String
  parseError : Option String

/-- How the single upstream `fetch` settled: a response (status plus body
text read by `res.text()`), or a rejection.  For a rejection, `estr` is
`String(e)` and `emsg` is `String(e?.message || e)`; the deadline firing
surfaces as a rejection whose `String(e)` contains `"AbortError"`, which is
exactly the test both forwarders apply. -/
inductive FetchOutcome where
  | response (status : Nat) (text : String)
  | failure (estr : String) (emsg : String)

/-- The one upstream POST a handler issues (URL and serialized body; the
auth/content-type request headers are glue and not modelled). -/
structure SentRequest where
  url : String
  body : String

/-- What a handler invocation did: the upstream request it transmitted, if
any, and the status code and body text returned to the caller (response
headers are CORS glue, out of scope per spec §1). -/
structure HandlerResult where
  sent : Option SentRequest
  statusCode : Nat
  body : String

/-! ## Shared helpers of api.js and flow-proxy.js -/

/-- Embedding of `safeJsonParse` (api.js lines 43-49, flow-proxy.js lines
23-29): `{ok: true, value}` or `{ok: false, error: String(e)}`. -/
def safeJsonParse (text : String) : Except String JVal := jsonParse text

/-- Embedding of `getRawBody` (api.js lines 35-41, flow-proxy.js lines
31-37): empty for a missing body, base64-decode when flagged. -/
def getRawBody (event : Event) : String :=
  if event.body = "" then ""
  else if event.isBase64Encoded then base64DecodeUtf8 event.body
  else event.body

/-- Embedding of `parseFormUrlEncoded` (api.js lines 51-60, flow-proxy.js
lines 45-54): `new URLSearchParams(raw)` never throws on a string argument,
so the `ok:false` branch of the source is unreachable and the result is just
the accumulated object (`obj[k] = v` per entry). -/
def parseFormUrlEncoded (raw : String) : JObj :=
  (formEntries raw).foldl (fun o kv => o.assign kv.1 (.str kv.2)) .nil

def JObj.isNil : JObj → Bool
  | .nil => true
  | .cons _ _ _ => false

/-! ## api.js -/

def apiVERSION : String := "api-v8-2026-01-30"

def DEFAULT_FLOW_BASE_URL : String := "https://flow.eraenterprise.id"

def TIMEOUT_MS : Nat := 15000

def sqChar : Char := Char.ofNat 39

/-- Embedding of `sanitizeRaw` (api.js lines 63-75) on character lists:
trim; drop a leading U+FEFF; strip one outer pair of single quotes and
re-trim. -/
def sanitizeRawL (l : List Char) : List Char :=
  let s := jsTrimL l
  let s1 := match s with
    | [] => []
    | c :: rest => if c.toNat = 0xFEFF then rest else c :: rest
  if 2 ≤ s1.length ∧ s1.head? = some sqChar ∧ s1.getLast? = some sqChar then
    jsTrimL ((s1.drop 1).dropLast)
  else s1

def sanitizeRaw (s : String) : String := String.mk (sanitizeRawL s.toList)

/-- Embedding of `parsePayload` (api.js lines 78-104): the ordered fallback
chain empty → JSON → double-encoded JSON → form-urlencoded → raw. -/
def parsePayload (event : Event) : ParseOutcome :=
  if sanitizeRaw (getRawBody event) = "" then ⟨.obj .nil, "empty", none⟩
  else
    match safeJsonParse (sanitizeRaw (getRawBody event)) with
    | .ok (.str s) =>
      (match safeJsonParse s with
       | .ok v2 => ⟨jsOrEmptyObj v2, "json-double", none⟩
       | .error e2 => ⟨JVal.mkObj [("rawBody", .str (getRawBody event))], "raw", some e2⟩)
    | .ok v => ⟨jsOrEmptyObj v, "json", none⟩
    | .error e1 =>
      if (parseFormUrlEncoded (sanitizeRaw (getRawBody event))).isNil then
        ⟨JVal.mkObj [("rawBody", .str (getRawBody event))], "raw", some e1⟩
      else ⟨.obj (parseFormUrlEncoded (sanitizeRaw (getRawBody event))), "form-urlencoded", none⟩

def fnPathStart : String := "/.netlify/functions/api"

/-- Embedding of `normalizePath` (api.js lines 19-33). -/
def normalizePath (event : Event) : String :=
  let rawPath := if event.path = "" then "/" else event.path
  let p1 := if jsStartsWith rawPath fnPathStart then jsDrop rawPath fnPathStart.toList.length else rawPath
  let p2 := if jsStartsWith p1 "/api/" then jsDrop p1 4 else p1
  let p3 := if p2 = "/api" then "/" else p2
  if jsStartsWith p3 "/" then p3 else "/" ++ p3

def apiTimeoutMsg : String := "Upstream timeout after " ++ toString TIMEOUT_MS ++ "ms"

/-- The upstream URL api.js computes:
`(process.env.FLOW_BASE_URL || DEFAULT_FLOW_BASE_URL).trim()` plus the route
path (api.js lines 117, 121). -/
def apiUpstreamUrl (env : Env) (flowPath : String) : String :=
  jsTrim (if env.FLOW_BASE_URL ≠ "" then env.FLOW_BASE_URL else DEFAULT_FLOW_BASE_URL) ++ flowPath

/-- Embedding of `proxyToFlow` (api.js lines 116-165).  Note the transmitted
body is `JSON.stringify(payload)` — the bare normalized payload. -/
def proxyToFlow (env : Env) (event : Event) (flowPath : String) (net : FetchOutcome) : HandlerResult :=
  match net with
  | .response s txt =>
    ⟨some ⟨apiUpstreamUrl env flowPath, JVal.stringify (parsePayload event).payload⟩, s, txt⟩
  | .failure estr emsg =>
    ⟨some ⟨apiUpstreamUrl env flowPath, JVal.stringify (parsePayload event).payload⟩, 502,
      JVal.stringify (JVal.mkObj [("ok", .bool false), ("version", .str apiVERSION),
        ("message", .str "Gateway error ke flow"),
        ("detail", .str (if strContains estr "AbortError" then apiTimeoutMsg else emsg)),
        ("meta", JVal.mkObj ([("upstreamUrl", .str (apiUpstreamUrl env flowPath)),
            ("parsedAs", .str (parsePayload event).parsedAs)]
          ++ (match (parsePayload event).parseError with
              | some e => if e ≠ "" then [("parseError", JVal.str e)] else []
              | none => [])
          ++ [("flow_base_set", .bool (env.FLOW_BASE_URL ≠ "")),
              ("flow_key_set", .bool (env.FLOW_API_KEY ≠ ""))]))])⟩

def apiHealthBody (env : Env) (now : String) (debug : Bool) : JVal :=
  JVal.mkObj ([("ok", .bool true), ("version", .str apiVERSION), ("service", .str "api"),
    ("time", .str now), ("flow_base_set", .bool (env.FLOW_BASE_URL ≠ "")),
    ("flow_key_set", .bool (env.FLOW_API_KEY ≠ ""))]
    ++ (if debug then
          [("debug", JVal.mkObj [("flowBase", .str (jsTrim (if env.FLOW_BASE_URL ≠ "" then env.FLOW_BASE_URL else DEFAULT_FLOW_BASE_URL))),
            ("hasKey", .bool (jsTrim env.FLOW_API_KEY ≠ ""))])]
        else []))

/-- JavaScript `event.httpMethod || "GET"` (api.js line 169, flow-proxy.js
line 57). -/
def jsMethodOf (event : Event) : String :=
  if event.httpMethod = "" then "GET" else event.httpMethod

/-- Embedding of the api.js handler (lines 167-218): CORS preflight, health,
405 for non-POST, the two auth routes, 404 otherwise. -/
def apiHandler (env : Env) (now : String) (event : Event) (net : FetchOutcome) : HandlerResult :=
  if jsMethodOf event = "OPTIONS" then ⟨none, 204, ""⟩
  else if jsMethodOf event = "GET" ∧ normalizePath event = "/health" then
    ⟨none, 200, JVal.stringify (apiHealthBody env now event.queryDebug)⟩
  else if jsMethodOf event ≠ "POST" then
    ⟨none, 405, JVal.stringify (JVal.mkObj [("ok", .bool false), ("version", .str apiVERSION),
      ("message", .str ("Method " ++ jsMethodOf event ++ " not allowed"))])⟩
  else if normalizePath event = "/auth/login" then proxyToFlow env event "/webhook/api/auth/login" net
  else if normalizePath event = "/auth/signup" then proxyToFlow env event "/webhook/api/auth/signup" net
  else
    ⟨none, 404, JVal.stringify (JVal.mkObj [("ok", .bool false), ("version", .str apiVERSION),
      ("message", .str "Not Found"), ("path", .str (normalizePath event)),
      ("method", .str (jsMethodOf event))])⟩

/-! ## flow-proxy.js -/

def flowVERSION : String := "v4-2026-01-29-FIX"

def DEFAULT_N8N_WEBHOOK_URL : String := "https://flow.eraenterprise.id/webhook/eramed-clara-appsmith"

def flowTimeoutMs : Nat := 15000

def flowTimeoutMsg : String := "Upstream timeout after " ++ toString flowTimeoutMs ++ "ms"

/-- Embedding of `getHeader` (flow-proxy.js lines 39-43): first
case-insensitive key match; the quirk `key ? h[key] : ""` returns `""` when
the matching key is the empty string. -/
def getHeader (event : Event) (name : String) : String :=
  match event.headers.find? (fun kv => jsToLower kv.1 = jsToLower name) with
  | some kv => if kv.1 = "" then "" else kv.2
  | none => ""

/-- Embedding of the inline body-normalization block of the flow-proxy
handler (flow-proxy.js lines 107-131): note there is no sanitization, no
double-decode, and the guard is JS truthiness of the raw body. -/
def flowProxyParse (rawBody : String) : ParseOutcome :=
  if rawBody = "" then ⟨.obj .nil, "empty", none⟩
  else
    match safeJsonParse rawBody with
    | .ok v => ⟨jsOrEmptyObj v, "json", none⟩
    | .error err =>
      if (parseFormUrlEncoded rawBody).isNil then
        ⟨JVal.mkObj [("rawBody", .str rawBody)], "raw", some err⟩
      else ⟨.obj (parseFormUrlEncoded rawBody), "form-urlencoded", none⟩

/-- The declared content type as flow-proxy computes it (lines 104-105):
`(getHeader(event, "content-type") || "").split(";")[0].trim().toLowerCase()`. -/
def contentTypeOf (event : Event) : String :=
  jsToLower (jsTrim (beforeSemi (getHeader event "content-type")))

/-- Embedding of the `forwardBody` object (flow-proxy.js lines 139-147): the
ForwardEnvelope of spec §3. -/
def flowEnvelope (now : String) (contentType : String) (o : ParseOutcome) : JVal :=
  JVal.mkObj ([("source", .str "netlify"), ("version", .str flowVERSION),
    ("receivedAt", .str now),
    ("contentType", if contentType ≠ "" then .str contentType else .null),
    ("parsedAs", .str o.parsedAs)]
    ++ (match o.parseError with
        | some e => if e ≠ "" then [("parseError", JVal.str e)] else []
        | none => [])
    ++ [("payload", o.payload)])

def jsResOk (s : Nat) : Bool := decide (200 ≤ s) && decide (s < 300)

def flowProxyHealthBody (envUrl chosenUrl : String) (debug : Bool) : JVal :=
  JVal.mkObj ([("ok", .bool true), ("version", .str flowVERSION),
    ("message", .str "flow-proxy is running. Send POST to forward to n8n.")]
    ++ (if debug then
          [("debug", JVal.mkObj [("envPresent", .bool (envUrl ≠ "")),
            ("envUrlRaw", if envUrl ≠ "" then .str envUrl else .null),
            ("chosenUrl", .str chosenUrl)])]
        else []))

/-- The target URL flow-proxy uses (lines 65-66): trimmed env value if
non-empty, else the hardcoded default. -/
def chosenUrlOf (env : Env) : String :=
  if jsTrim env.N8N_WEBHOOK_URL ≠ "" then jsTrim env.N8N_WEBHOOK_URL else DEFAULT_N8N_WEBHOOK_URL

/-- Embedding of the flow-proxy handler (flow-proxy.js lines 56-191). -/
def flowProxyHandler (env : Env) (now : String) (event : Event) (net : FetchOutcome) : HandlerResult :=
  if jsMethodOf event = "OPTIONS" then ⟨none, 204, ""⟩
  else if jsMethodOf event = "GET" then
    ⟨none, 200, JVal.stringify (flowProxyHealthBody (jsTrim env.N8N_WEBHOOK_URL) (chosenUrlOf env)
      event.queryDebug)⟩
  else if jsMethodOf event ≠ "POST" then
    ⟨none, 405, JVal.stringify (JVal.mkObj [("ok", .bool false), ("version", .str flowVERSION),
      ("error", .str ("Method " ++ jsMethodOf event ++ " not allowed. Use POST."))])⟩
  else
    match net with
    | .response s txt =>
      ⟨some ⟨chosenUrlOf env,
          JVal.stringify (flowEnvelope now (contentTypeOf event) (flowProxyParse (getRawBody event)))⟩,
        s,
        JVal.stringify (match safeJsonParse txt with
          | .ok v => v
          | .error _ => JVal.mkObj [("ok", .bool (jsResOk s)), ("status", .num (Int.ofNat s) 0),
              ("text", .str txt)])⟩
    | .failure estr _ =>
      ⟨some ⟨chosenUrlOf env,
          JVal.stringify (flowEnvelope now (contentTypeOf event) (flowProxyParse (getRawBody event)))⟩,
        502,
        JVal.stringify (JVal.mkObj [("ok", .bool false), ("version", .str flowVERSION),
          ("error", .str "Failed to call n8n"),
          ("detail", .str (if strContains estr "AbortError" then flowTimeoutMsg else estr)),
          ("envPresent", .bool (jsTrim env.N8N_WEBHOOK_URL ≠ "")),
          ("chosenUrl", .str (chosenUrlOf env))])⟩

/-! ## The unnamed login function (src/unnamed/part_000) -/

/-- Embedding of the unnamed login handler: OPTIONS preflight, 405 for
non-POST, then `JSON.parse(event.body || "{}")` with a 400 on failure, and a
single forward of the bare payload.  It applies no base64 decoding and no
fallback chain. -/
def loginHandler (env : Env) (event : Event) (net : FetchOutcome) : HandlerResult :=
  if event.httpMethod = "OPTIONS" then ⟨none, 204, ""⟩
  else if event.httpMethod ≠ "POST" then ⟨none, 405, "Method Not Allowed"⟩
  else
    match safeJsonParse (if event.body = "" then "\x7b\x7d" else event.body) with
    | .error _ =>
      ⟨none, 400, JVal.stringify (JVal.mkObj [("ok", .bool false), ("message", .str "Body harus JSON")])⟩
    | .ok payload =>
      match net with
      | .response s txt =>
        ⟨some ⟨(if env.FLOW_BASE_URL ≠ "" then env.FLOW_BASE_URL else DEFAULT_FLOW_BASE_URL)
            ++ "/webhook/api/auth/login", JVal.stringify payload⟩, s, txt⟩
      | .failure _ emsg =>
        ⟨some ⟨(if env.FLOW_BASE_URL ≠ "" then env.FLOW_BASE_URL else DEFAULT_FLOW_BASE_URL)
            ++ "/webhook/api/auth/login", JVal.stringify payload⟩, 502,
          JVal.stringify (JVal.mkObj [("ok", .bool false), ("message", .str "Gateway error ke flow"),
            ("detail", .str emsg)])⟩

/-! Auxiliary lemmas about JavaScript trimming and sanitization -/

/-- Head of a `dropWhile` result never satisfies the predicate. -/
theorem dropWhile_head_not (p : Char → Bool) (l : List Char) (c : Char)
    (h : (l.dropWhile p).head? = some c) : p c = false := by
  induction l with
  | nil => simp at h
  | cons a t ih =>
    by_cases hp : p a
    · exact ih (by simpa [List.dropWhile, hp] using h)
    · simp [List.dropWhile, hp] at h
      subst h
      simpa using hp

/-- On a nonempty result, `dropWhile` preserves the last element. -/
theorem dropWhile_getLast (p : Char → Bool) (l : List Char)
    (h : l.dropWhile p ≠ []) : (l.dropWhile p).getLast? = l.getLast? := by
  induction l with
  | nil => simp at h
  | cons a t ih =>
    by_cases hp : p a
    · rw [List.dropWhile_cons_of_pos hp] at h ⊢
      rw [ih h]
      rcases t with _ | ⟨b, t2⟩
      · simp [List.dropWhile] at h
      · simp [List.getLast?_cons_cons]
    · rw [List.dropWhile_cons_of_neg hp]

/-- The first character of a JS-trimmed list is not JS whitespace. -/
theorem jsTrimL_head_not (l : List Char) (c : Char)
    (h : (jsTrimL l).head? = some c) : jsWsChar c = false := by
  unfold jsTrimL at h
  rw [List.head?_reverse] at h
  have hne : (l.dropWhile jsWsChar).reverse.dropWhile jsWsChar ≠ [] := by
    intro he
    rw [he] at h
    simp at h
  rw [dropWhile_getLast _ _ hne, List.getLast?_reverse] at h
  exact dropWhile_head_not _ _ _ h

/-- The last character of a JS-trimmed list is not JS whitespace. -/
theorem jsTrimL_getLast_not (l : List Char) (c : Char)
    (h : (jsTrimL l).getLast? = some c) : jsWsChar c = false := by
  unfold jsTrimL at h
  rw [List.getLast?_reverse] at h
  exact dropWhile_head_not _ _ _ h

/-- Characterization of `sanitizeRaw`: because JavaScript `trim` already
removes U+FEFF, the explicit BOM branch is dead; what remains is trim
followed by an optional strip of one outer pair of single quotes with a
re-trim. -/
theorem sanitizeRawL_char (l : List Char) :
    sanitizeRawL l =
      (if 2 ≤ (jsTrimL l).length ∧ (jsTrimL l).head? = some sqChar ∧ (jsTrimL l).getLast? = some sqChar
       then jsTrimL (((jsTrimL l).drop 1).dropLast)
       else jsTrimL l) := by
  unfold sanitizeRawL
  rcases hs : jsTrimL l with _ | ⟨c, rest⟩
  · simp
  · have hc : jsWsChar c = false := jsTrimL_head_not l c (by rw [hs]; rfl)
    have hbom : c.toNat ≠ 0xFEFF := by
      intro hfe
      rw [show jsWsChar c = true by simp [jsWsChar, hfe]] at hc
      simp at hc
    simp only [hbom, if_false]

/-- C1 counterexample: the unnamed login function answers a POST whose body
fails to JSON-parse with status 400 — a 4xx that is neither 404 nor 405 and
originates from body parsing, contradicting the claim as stated. -/
theorem c1_counterexample :
    (loginHandler (Env.mk "" "" "") (Event.mk "POST" "/" [] false "not json" false)
      (.response 200 "\x7b\x7d")).statusCode = 400 ∧
    (400 : Nat) ≠ 404 ∧ (400 : Nat) ≠ 405 := by
  exact ⟨rfl, by decide, by decide⟩

set_option maxHeartbeats 1000000 in
/-- C1 (amended): the api.js and flow-proxy.js handlers produce only
204/200/405/404/502 or a mirrored upstream status — any self-generated 4xx is
404 or 405 — and their status codes are completely independent of the request
body and its base64 flag (so no 4xx can arise from a body-parsing failure);
the exception forcing the amendment is the unnamed login function (see the
counterexample). -/
theorem c1_amended (env : Env) (now m p : String) (hs : List (String × String)) (q : Bool)
    (b1 b2 : String) (f1 f2 : Bool) (net : FetchOutcome) :
    ((apiHandler env now (Event.mk m p hs q b1 f1) net).statusCode = 204 ∨
     (apiHandler env now (Event.mk m p hs q b1 f1) net).statusCode = 200 ∨
     (apiHandler env now (Event.mk m p hs q b1 f1) net).statusCode = 405 ∨
     (apiHandler env now (Event.mk m p hs q b1 f1) net).statusCode = 404 ∨
     (apiHandler env now (Event.mk m p hs q b1 f1) net).statusCode = 502 ∨
     (∃ s txt, net = .response s txt ∧ (apiHandler env now (Event.mk m p hs q b1 f1) net).statusCode = s)) ∧
    ((flowProxyHandler env now (Event.mk m p hs q b1 f1) net).statusCode = 204 ∨
     (flowProxyHandler env now (Event.mk m p hs q b1 f1) net).statusCode = 200 ∨
     (flowProxyHandler env now (Event.mk m p hs q b1 f1) net).statusCode = 405 ∨
     (flowProxyHandler env now (Event.mk m p hs q b1 f1) net).statusCode = 502 ∨
     (∃ s txt, net = .response s txt ∧ (flowProxyHandler env now (Event.mk m p hs q b1 f1) net).statusCode = s)) ∧
    (apiHandler env now (Event.mk m p hs q b1 f1) net).statusCode
      = (apiHandler env now (Event.mk m p hs q b2 f2) net).statusCode ∧
    (flowProxyHandler env now (Event.mk m p hs q b1 f1) net).statusCode
      = (flowProxyHandler env now (Event.mk m p hs q b2 f2) net).statusCode := by
  refine ⟨?_, ?_, ?_, ?_⟩
  · cases net with
    | response s txt =>
      unfold apiHandler
      split_ifs <;>
        first
          | exact Or.inl rfl
          | exact Or.inr (Or.inl rfl)
          | exact Or.inr (Or.inr (Or.inl rfl))
          | exact Or.inr (Or.inr (Or.inr (Or.inl rfl)))
          | exact Or.inr (Or.inr (Or.inr (Or.inr (Or.inr ⟨s, txt, rfl, rfl⟩))))
    | failure estr emsg =>
      unfold apiHandler
      split_ifs <;>
        first
          | exact Or.inl rfl
          | exact Or.inr (Or.inl rfl)
          | exact Or.inr (Or.inr (Or.inl rfl))
          | exact Or.inr (Or.inr (Or.inr (Or.inl rfl)))
          | exact Or.inr (Or.inr (Or.inr (Or.inr (Or.inl rfl))))
  · cases net with
    | response s txt =>
      unfold flowProxyHandler
      split_ifs <;>
        first
          | exact Or.inl rfl
          | exact Or.inr (Or.inl rfl)
          | exact Or.inr (Or.inr (Or.inl rfl))
          | exact Or.inr (Or.inr (Or.inr (Or.inr ⟨s, txt, rfl, rfl⟩)))
    | failure estr emsg =>
      unfold flowProxyHandler
      split_ifs <;>
        first
          | exact Or.inl rfl
          | exact Or.inr (Or.inl rfl)
          | exact Or.inr (Or.inr (Or.inl rfl))
          | exact Or.inr (Or.inr (Or.inr (Or.inl rfl)))
  · have hm : jsMethodOf (Event.mk m p hs q b2 f2) = jsMethodOf (Event.mk m p hs q b1 f1) := rfl
    have hp : normalizePath (Event.mk m p hs q b2 f2) = normalizePath (Event.mk m p hs q b1 f1) := rfl
    cases net <;>
      (unfold apiHandler proxyToFlow
       rw [hm, hp]
       split_ifs <;> rfl)
  · have hm : jsMethodOf (Event.mk m p hs q b2 f2) = jsMethodOf (Event.mk m p hs q b1 f1) := rfl
    cases net <;>
      (unfold flowProxyHandler
       rw [hm]
       split_ifs <;> rfl)

set_option maxHeartbeats 1000000 in
/-- C2: body normalization is total (both normalizers are plain Lean
functions, so they cannot throw; every input event — any body bytes, any
base64 flag, any headers — yields a `ParseOutcome` whose payload is a `JVal`,
hence JSON-serializable by `JVal.stringify`), and the `parsedAs` tag always
lies in the fixed set empty/json/json-double/form-urlencoded/raw, for
api.js's `parsePayload` and flow-proxy's inline normalizer alike. -/
theorem c2_tags (event : Event) (raw : String) :
    ((parsePayload event).parsedAs = "empty" ∨ (parsePayload event).parsedAs = "json" ∨
     (parsePayload event).parsedAs = "json-double" ∨
     (parsePayload event).parsedAs = "form-urlencoded" ∨ (parsePayload event).parsedAs = "raw") ∧
    ((flowProxyParse raw).parsedAs = "empty" ∨ (flowProxyParse raw).parsedAs = "json" ∨
     (flowProxyParse raw).parsedAs = "json-double" ∨
     (flowProxyParse raw).parsedAs = "form-urlencoded" ∨ (flowProxyParse raw).parsedAs = "raw") := by
  constructor
  · unfold parsePayload
    split
    · exact Or.inl rfl
    · split
      · split
        · exact Or.inr (Or.inr (Or.inl rfl))
        · exact Or.inr (Or.inr (Or.inr (Or.inr rfl)))
      · exact Or.inr (Or.inl rfl)
      · split
        · exact Or.inr (Or.inr (Or.inr (Or.inr rfl)))
        · exact Or.inr (Or.inr (Or.inr (Or.inl rfl)))
  · unfold flowProxyParse
    split
    · exact Or.inl rfl
    · split
      · exact Or.inr (Or.inl rfl)
      · split
        · exact Or.inr (Or.inr (Or.inr (Or.inr rfl)))
        · exact Or.inr (Or.inr (Or.inr (Or.inl rfl)))

/-- C3 counterexample: api.js forwards the bare serialized payload — the
transmitted upstream body carries none of the envelope fields (no source
tag, no parsedAs, no receivedAt), contradicting the claim that every
forwarded request transmits the ForwardEnvelope. -/
theorem c3_counterexample :
    (apiHandler (Env.mk "" "" "") "T" (Event.mk "POST" "/auth/login" [] false "\x7b\"a\":1\x7d" false)
      (.response 200 "\x7b\x7d")).sent =
      some (SentRequest.mk "https://flow.eraenterprise.id/webhook/api/auth/login" "\x7b\"a\":1\x7d") ∧
    strContains "\x7b\"a\":1\x7d" "source" = false ∧
    strContains "\x7b\"a\":1\x7d" "parsedAs" = false ∧
    strContains "\x7b\"a\":1\x7d" "receivedAt" = false := by
  exact ⟨rfl, by decide, by decide, by decide⟩

/-- C3 (amended): flow-proxy.js transmits exactly the serialized
ForwardEnvelope — an object with source tag, version, receipt timestamp,
declared content-type (null when absent), parsedAs, the parseError when
present, and the payload — while api.js transmits the bare serialized
payload alone. -/
theorem c3_amended (env : Env) (now : String) (event : Event) (net : FetchOutcome)
    (hm : event.httpMethod = "POST") (hp : normalizePath event = "/auth/login") :
    (flowProxyHandler env now event net).sent =
      some ⟨chosenUrlOf env,
        JVal.stringify (JVal.mkObj ([("source", .str "netlify"), ("version", .str flowVERSION),
          ("receivedAt", .str now),
          ("contentType", if contentTypeOf event ≠ "" then .str (contentTypeOf event) else .null),
          ("parsedAs", .str (flowProxyParse (getRawBody event)).parsedAs)]
          ++ (match (flowProxyParse (getRawBody event)).parseError with
              | some e => if e ≠ "" then [("parseError", JVal.str e)] else []
              | none => [])
          ++ [("payload", (flowProxyParse (getRawBody event)).payload)]))⟩ ∧
    (apiHandler env now event net).sent =
      some ⟨apiUpstreamUrl env "/webhook/api/auth/login", JVal.stringify (parsePayload event).payload⟩ := by
  have hm' : jsMethodOf event = "POST" := by unfold jsMethodOf; rw [hm]; decide
  constructor
  · unfold flowProxyHandler
    rw [hm', if_neg (by decide : ¬("POST" : String) = "OPTIONS"),
      if_neg (by decide : ¬("POST" : String) = "GET"),
      if_neg (by decide : ¬("POST" : String) ≠ "POST")]
    cases net <;> rfl
  · unfold apiHandler
    rw [hm', hp, if_neg (by decide : ¬("POST" : String) = "OPTIONS"),
      if_neg (by decide : ¬(("POST" : String) = "GET" ∧ ("/auth/login" : String) = "/health")),
      if_neg (by decide : ¬("POST" : String) ≠ "POST"),
      if_pos (rfl : ("/auth/login" : String) = "/auth/login")]
    cases net <;> rfl

/-- C3 witness: the amended theorem applied at a concrete POST request. -/
theorem c3_witness :
    normalizePath (Event.mk "POST" "/auth/login" [] false "" false) = "/auth/login" ∧
    (flowProxyHandler (Env.mk "" "" "") "T" (Event.mk "POST" "/auth/login" [] false "" false)
      (.response 200 "ok")).sent.isSome = true ∧
    (apiHandler (Env.mk "" "" "") "T" (Event.mk "POST" "/auth/login" [] false "" false)
      (.response 200 "ok")).sent.isSome = true := by
  have h := c3_amended (Env.mk "" "" "") "T" (Event.mk "POST" "/auth/login" [] false "" false)
    (.response 200 "ok") rfl rfl
  refine ⟨rfl, ?_, ?_⟩
  · rw [h.1]; rfl
  · rw [h.2]; rfl

/-- C4: when the single forward attempt fails — deadline elapsed (the
rejection's `String(e)` contains "AbortError") or any other transport
failure — both forwarders return 502 with a JSON body whose detail is the
timeout message naming the 15000 ms budget in the abort case and the
failure's description otherwise, carrying diagnostic metadata (chosen
upstream URL and whether the configuration env vars were present), and the
upstream request was transmitted exactly once (`sent` records the single
POST issued). -/
theorem c4_forward_failure_502 (env : Env) (now : String) (event : Event) (estr emsg : String)
    (hm : event.httpMethod = "POST") (hp : normalizePath event = "/auth/login") :
    apiTimeoutMsg = "Upstream timeout after 15000ms" ∧
    flowTimeoutMsg = "Upstream timeout after 15000ms" ∧
    (apiHandler env now event (.failure estr emsg)).statusCode = 502 ∧
    (apiHandler env now event (.failure estr emsg)).sent =
      some ⟨apiUpstreamUrl env "/webhook/api/auth/login", JVal.stringify (parsePayload event).payload⟩ ∧
    (apiHandler env now event (.failure estr emsg)).body =
      JVal.stringify (JVal.mkObj [("ok", .bool false), ("version", .str apiVERSION),
        ("message", .str "Gateway error ke flow"),
        ("detail", .str (if strContains estr "AbortError" then apiTimeoutMsg else emsg)),
        ("meta", JVal.mkObj ([("upstreamUrl", .str (apiUpstreamUrl env "/webhook/api/auth/login")),
            ("parsedAs", .str (parsePayload event).parsedAs)]
          ++ (match (parsePayload event).parseError with
              | some e => if e ≠ "" then [("parseError", JVal.str e)] else []
              | none => [])
          ++ [("flow_base_set", .bool (env.FLOW_BASE_URL ≠ "")),
              ("flow_key_set", .bool (env.FLOW_API_KEY ≠ ""))]))]) ∧
    (flowProxyHandler env now event (.failure estr emsg)).statusCode = 502 ∧
    (flowProxyHandler env now event (.failure estr emsg)).sent =
      some ⟨chosenUrlOf env,
        JVal.stringify (flowEnvelope now (contentTypeOf event) (flowProxyParse (getRawBody event)))⟩ ∧
    (flowProxyHandler env now event (.failure estr emsg)).body =
      JVal.stringify (JVal.mkObj [("ok", .bool false), ("version", .str flowVERSION),
        ("error", .str "Failed to call n8n"),
        ("detail", .str (if strContains estr "AbortError" then flowTimeoutMsg else estr)),
        ("envPresent", .bool (jsTrim env.N8N_WEBHOOK_URL ≠ "")),
        ("chosenUrl", .str (chosenUrlOf env))]) := by
  have hm' : jsMethodOf event = "POST" := by unfold jsMethodOf; rw [hm]; decide
  refine ⟨rfl, rfl, ?_, ?_, ?_, ?_, ?_, ?_⟩ <;>
    first
      | (unfold apiHandler
         rw [hm', hp, if_neg (by decide : ¬("POST" : String) = "OPTIONS"),
           if_neg (by decide : ¬(("POST" : String) = "GET" ∧ ("/auth/login" : String) = "/health")),
           if_neg (by decide : ¬("POST" : String) ≠ "POST"),
           if_pos (rfl : ("/auth/login" : String) = "/auth/login")]
         try rfl)
      | (unfold flowProxyHandler
         rw [hm', if_neg (by decide : ¬("POST" : String) = "OPTIONS"),
           if_neg (by decide : ¬("POST" : String) = "GET"),
           if_neg (by decide : ¬("POST" : String) ≠ "POST")]
         try rfl)

/-- C4 witness: the theorem applied to a concrete aborted forward. -/
theorem c4_witness :
    strContains "AbortError: This operation was aborted" "AbortError" = true ∧
    (apiHandler (Env.mk "" "" "") "T" (Event.mk "POST" "/auth/login" [] false "" false)
      (.failure "AbortError: This operation was aborted" "This operation was aborted")).statusCode = 502 ∧
    (flowProxyHandler (Env.mk "" "" "") "T" (Event.mk "POST" "/auth/login" [] false "" false)
      (.failure "AbortError: This operation was aborted" "This operation was aborted")).statusCode = 502 := by
  have h := c4_forward_failure_502 (Env.mk "" "" "") "T" (Event.mk "POST" "/auth/login" [] false "" false)
    "AbortError: This operation was aborted" "This operation was aborted" rfl rfl
  exact ⟨by decide, h.2.2.1, h.2.2.2.2.2.1⟩

/-- C5 counterexample: for a body that JSON-parses to a string containing
valid JSON, flow-proxy's normalizer performs no second parse: it returns
parsedAs = "json" with the inner string itself as payload, not "json-double"
with the inner JSON value, contradicting the claim for that normalizer. -/
theorem c5_counterexample :
    safeJsonParse "\"\x7b\\\"a\\\":1\x7d\"" = .ok (.str "\x7b\"a\":1\x7d") ∧
    (jsonParse "\x7b\"a\":1\x7d").isOk = true ∧
    flowProxyParse "\"\x7b\\\"a\\\":1\x7d\"" =
      ⟨.str "\x7b\"a\":1\x7d", "json", none⟩ ∧
    "json" ≠ "json-double" := by
  exact ⟨rfl, rfl, rfl, by decide⟩

/-- C5 (amended): api.js's normalizer behaves exactly as claimed — when the
sanitized text parses to a string, that string is parsed again, yielding
json-double with the inner value (null coerced to {}) on success, or falling
through to the raw fallback keeping the second parse's error on failure;
flow-proxy's normalizer instead reports such input as plain json with the
string itself as payload. -/
theorem c5_amended (event : Event) (s rawB s2 : String)
    (h : safeJsonParse (sanitizeRaw (getRawBody event)) = .ok (.str s))
    (h2 : rawB ≠ "") (h3 : safeJsonParse rawB = .ok (.str s2)) :
    parsePayload event =
      (match safeJsonParse s with
       | .ok v2 => ⟨jsOrEmptyObj v2, "json-double", none⟩
       | .error e2 => ⟨JVal.mkObj [("rawBody", .str (getRawBody event))], "raw", some e2⟩) ∧
    flowProxyParse rawB = ⟨.str s2, "json", none⟩ := by
  constructor
  · have hne : ¬sanitizeRaw (getRawBody event) = "" := by
      intro he
      have h0 : safeJsonParse "" = Except.error "SyntaxError: Unexpected end of JSON input" := rfl
      rw [he, h0] at h
      exact Except.noConfusion h
    unfold parsePayload
    rw [if_neg hne, h]
  · unfold flowProxyParse
    rw [if_neg h2, h3]
    rfl

/-- C5 witness: the amended theorem applied to concrete double-encoded
bodies. -/
theorem c5_witness :
    safeJsonParse (sanitizeRaw (getRawBody
        (Event.mk "POST" "/" [] false "\"\x7b\\\"a\\\":1\x7d\"" false))) =
      .ok (.str "\x7b\"a\":1\x7d") ∧
    parsePayload (Event.mk "POST" "/" [] false "\"\x7b\\\"a\\\":1\x7d\"" false) =
      ⟨JVal.mkObj [("a", .num 1 0)], "json-double", none⟩ ∧
    flowProxyParse "\"y\"" = ⟨.str "y", "json", none⟩ := by
  have h := c5_amended (Event.mk "POST" "/" [] false "\"\x7b\\\"a\\\":1\x7d\"" false)
    "\x7b\"a\":1\x7d" "\"y\"" "y" rfl (by decide) rfl
  exact ⟨rfl, h.1.trans rfl, h.2⟩

/-- C6 counterexample: the body consisting of a JSON string literal is a
well-formed JSON body, but api.js's normalizer does not yield
parsedAs = "json" for it — the top-level string triggers the double-decode
attempt, whose failure drops the outcome to "raw". -/
theorem c6_counterexample :
    (jsonParse "\"hi\"").isOk = true ∧
    parsePayload (Event.mk "POST" "/auth/login" [] false "\"hi\"" false) =
      ⟨JVal.mkObj [("rawBody", .str "\"hi\"")], "raw", some "SyntaxError: Unexpected token in JSON"⟩ ∧
    "raw" ≠ "json" := by
  exact ⟨rfl, rfl, by decide⟩

/-- C6 (amended): for every well-formed JSON body whose top-level value is
not a string (objects — hence the structural round-trip for plain objects —
arrays, numbers, booleans), api.js's normalizer yields parsedAs = "json" and
the parsed value itself as payload ({} for null); flow-proxy's normalizer
yields that for every well-formed JSON body including top-level strings. -/
theorem c6_amended (event : Event) (v : JVal) (rawB : String) (w : JVal)
    (h : safeJsonParse (sanitizeRaw (getRawBody event)) = .ok v) (hv : v.isStr = false)
    (h2 : rawB ≠ "") (h3 : safeJsonParse rawB = .ok w) :
    parsePayload event = ⟨jsOrEmptyObj v, "json", none⟩ ∧
    flowProxyParse rawB = ⟨jsOrEmptyObj w, "json", none⟩ := by
  constructor
  · have hne : ¬sanitizeRaw (getRawBody event) = "" := by
      intro he
      have h0 : safeJsonParse "" = Except.error "SyntaxError: Unexpected end of JSON input" := rfl
      rw [he, h0] at h
      exact Except.noConfusion h
    unfold parsePayload
    rw [if_neg hne, h]
    cases v with
    | str s => simp [JVal.isStr] at hv
    | null => rfl
    | bool b => rfl
    | num m e => rfl
    | arr xs => rfl
    | obj fs => rfl
  · unfold flowProxyParse
    rw [if_neg h2, h3]

/-- C6 witness: the amended theorem applied to a concrete array body and a
concrete object body. -/
theorem c6_witness :
    safeJsonParse (sanitizeRaw (getRawBody (Event.mk "POST" "/" [] false "[1]" false))) =
      .ok (.arr (.cons (.num 1 0) .nil)) ∧
    parsePayload (Event.mk "POST" "/" [] false "[1]" false) =
      ⟨.arr (.cons (.num 1 0) .nil), "json", none⟩ ∧
    flowProxyParse "\x7b\"a\":2\x7d" = ⟨JVal.mkObj [("a", .num 2 0)], "json", none⟩ := by
  have h := c6_amended (Event.mk "POST" "/" [] false "[1]" false) (.arr (.cons (.num 1 0) .nil))
    "\x7b\"a\":2\x7d" (JVal.mkObj [("a", .num 2 0)]) rfl rfl (by decide) rfl
  exact ⟨rfl, h.1, h.2⟩

/-- C7 counterexample: flow-proxy applies no sanitization — a single-quoted
JSON body is not unwrapped there; its JSON parse fails and the whole text
becomes a form-urlencoded key, contradicting the claimed scenario for that
handler. -/
theorem c7_counterexample :
    flowProxyParse "\x27\x7b\"a\":1\x7d\x27" =
      ⟨JVal.mkObj [("\x27\x7b\"a\":1\x7d\x27", .str "")], "form-urlencoded", none⟩ ∧
    "form-urlencoded" ≠ "json" := by
  exact ⟨rfl, by decide⟩

/-- C7 (amended): api.js's `sanitizeRaw` equals trimming followed by
stripping exactly one outer matching pair of single quotes with a re-trim
(the explicit BOM branch is subsumed because JavaScript `trim` already
removes U+FEFF, as the second conjunct shows); a double-quoted text is never
unwrapped; and the single-quoted scenario body normalizes to
parsedAs = "json" with payload having field a mapped to 1.  flow-proxy
performs none of this (see the counterexample). -/
theorem c7_amended (l : List Char) :
    (sanitizeRawL l =
      if 2 ≤ (jsTrimL l).length ∧ (jsTrimL l).head? = some sqChar ∧ (jsTrimL l).getLast? = some sqChar
      then jsTrimL (((jsTrimL l).drop 1).dropLast)
      else jsTrimL l) ∧
    jsTrimL (Char.ofNat 0xFEFF :: l) = jsTrimL l ∧
    ((jsTrimL l).head? = some '"' → sanitizeRawL l = jsTrimL l) ∧
    parsePayload (Event.mk "POST" "/auth/login" [] false "\x27\x7b\"a\":1\x7d\x27" false) =
      ⟨JVal.mkObj [("a", .num 1 0)], "json", none⟩ := by
  refine ⟨sanitizeRawL_char l, ?_, ?_, rfl⟩
  · unfold jsTrimL
    rw [List.dropWhile_cons_of_pos (by decide)]
  · intro hq
    rw [sanitizeRawL_char l]
    refine if_neg (fun hc => ?_)
    have hd := hc.2.1
    rw [hq] at hd
    exact absurd hd (by decide)

/-- C7 witness: the amended theorem applied to a concrete double-quoted
text. -/
theorem c7_witness :
    (jsTrimL ("\"x\"".toList)).head? = some '"' ∧
    sanitizeRawL ("\"x\"".toList) = jsTrimL ("\"x\"".toList) := by
  have h := c7_amended ("\"x\"".toList)
  exact ⟨rfl, h.2.2.1 rfl⟩

/-- C8 counterexample: api.js passes a non-JSON upstream body through
verbatim — the outgoing body is the raw upstream text, not the synthesized
object with success flag, status and text that the claim requires. -/
theorem c8_counterexample :
    (apiHandler (Env.mk "" "" "") "T" (Event.mk "POST" "/auth/login" [] false "\x7b\x7d" false)
      (.response 201 "created!")).statusCode = 201 ∧
    (apiHandler (Env.mk "" "" "") "T" (Event.mk "POST" "/auth/login" [] false "\x7b\x7d" false)
      (.response 201 "created!")).body = "created!" ∧
    (jsonParse "created!").isOk = false ∧
    "created!" ≠ JVal.stringify (JVal.mkObj [("ok", .bool true), ("status", .num 201 0),
      ("text", .str "created!")]) := by
  exact ⟨rfl, rfl, rfl, by decide⟩

/-- C8 (amended): for every upstream response received in time, both
handlers mirror the upstream status code exactly (non-2xx included, never
converted to 502); flow-proxy re-serializes the body's strict-JSON parse or
synthesizes the {ok, status, text} object as claimed, while api.js returns
the upstream body text verbatim. -/
theorem c8_amended (env : Env) (now : String) (event : Event) (s : Nat) (txt : String)
    (hm : event.httpMethod = "POST") (hp : normalizePath event = "/auth/login") :
    (flowProxyHandler env now event (.response s txt)).statusCode = s ∧
    (flowProxyHandler env now event (.response s txt)).body =
      JVal.stringify (match safeJsonParse txt with
        | .ok v => v
        | .error _ => JVal.mkObj [("ok", .bool (jsResOk s)), ("status", .num (Int.ofNat s) 0),
            ("text", .str txt)]) ∧
    (apiHandler env now event (.response s txt)).statusCode = s ∧
    (apiHandler env now event (.response s txt)).body = txt := by
  have hm' : jsMethodOf event = "POST" := by unfold jsMethodOf; rw [hm]; decide
  refine ⟨?_, ?_, ?_, ?_⟩ <;>
    first
      | (unfold apiHandler
         rw [hm', hp, if_neg (by decide : ¬("POST" : String) = "OPTIONS"),
           if_neg (by decide : ¬(("POST" : String) = "GET" ∧ ("/auth/login" : String) = "/health")),
           if_neg (by decide : ¬("POST" : String) ≠ "POST"),
           if_pos (rfl : ("/auth/login" : String) = "/auth/login")]
         try rfl)
      | (unfold flowProxyHandler
         rw [hm', if_neg (by decide : ¬("POST" : String) = "OPTIONS"),
           if_neg (by decide : ¬("POST" : String) = "GET"),
           if_neg (by decide : ¬("POST" : String) ≠ "POST")]
         try rfl)

/-- C8 witness: the amended theorem applied to concrete upstream JSON and
non-JSON responses. -/
theorem c8_witness :
    (flowProxyHandler (Env.mk "" "" "") "T" (Event.mk "POST" "/auth/login" [] false "" false)
      (.response 201 "\x7b\"id\":7\x7d")).statusCode = 201 ∧
    (flowProxyHandler (Env.mk "" "" "") "T" (Event.mk "POST" "/auth/login" [] false "" false)
      (.response 201 "\x7b\"id\":7\x7d")).body = "\x7b\"id\":7\x7d" ∧
    (flowProxyHandler (Env.mk "" "" "") "T" (Event.mk "POST" "/auth/login" [] false "" false)
      (.response 404 "nope")).body =
      "\x7b\"ok\":false,\"status\":404,\"text\":\"nope\"\x7d" ∧
    (apiHandler (Env.mk "" "" "") "T" (Event.mk "POST" "/auth/login" [] false "" false)
      (.response 201 "\x7b\"id\":7\x7d")).statusCode = 201 := by
  have h1 := c8_amended (Env.mk "" "" "") "T" (Event.mk "POST" "/auth/login" [] false "" false)
    201 "\x7b\"id\":7\x7d" rfl rfl
  have h2 := c8_amended (Env.mk "" "" "") "T" (Event.mk "POST" "/auth/login" [] false "" false)
    404 "nope" rfl rfl
  have h3 := c8_amended (Env.mk "" "" "") "T" (Event.mk "POST" "/auth/login" [] false "" false)
    201 "\x7b\"id\":7\x7d" rfl rfl
  exact ⟨h1.1, h1.2.1.trans rfl, h2.2.1.trans rfl, h3.2.2.1⟩

/-- C9 counterexample: a whitespace-only body sanitizes to the empty text,
but flow-proxy's normalizer (which tests raw-body truthiness before any
trimming) classifies a single-space body as form-urlencoded, not as
"empty". -/
theorem c9_counterexample :
    sanitizeRaw " " = "" ∧
    flowProxyParse " " = ⟨JVal.mkObj [(" ", .str "")], "form-urlencoded", none⟩ ∧
    "form-urlencoded" ≠ "empty" := by
  exact ⟨rfl, rfl, by decide⟩

/-- C9 (amended): api.js's normalizer returns parsedAs = "empty" with
payload {} for every body whose sanitized text is empty (absent, empty,
whitespace-only, or emptied by sanitization); flow-proxy's normalizer does
so only for an absent/empty raw body. -/
theorem c9_amended (event : Event) (h : sanitizeRaw (getRawBody event) = "") :
    parsePayload event = ⟨.obj .nil, "empty", none⟩ ∧
    flowProxyParse "" = ⟨.obj .nil, "empty", none⟩ := by
  constructor
  · unfold parsePayload
    rw [if_pos h]
  · rfl

/-- C9 witness: the amended theorem applied to a concrete whitespace-only
body. -/
theorem c9_witness :
    sanitizeRaw (getRawBody (Event.mk "POST" "/" [] false "  " false)) = "" ∧
    parsePayload (Event.mk "POST" "/" [] false "  " false) = ⟨.obj .nil, "empty", none⟩ := by
  have h := c9_amended (Event.mk "POST" "/" [] false "  " false) rfl
  exact ⟨rfl, h.1⟩

/-- C10: the declared content-type never influences normalization — api.js's
`parsePayload` gives identical outcomes under any two header lists, and
flow-proxy forwards, under any two header lists, envelopes built from the
same `ParseOutcome`, the content-type entering only the envelope's metadata
field. -/
theorem c10_content_type_invariance (m p : String) (h1 h2 : List (String × String)) (q : Bool)
    (b : String) (f64 : Bool) (env : Env) (now : String) (net : FetchOutcome) :
    parsePayload (Event.mk m p h1 q b f64) = parsePayload (Event.mk m p h2 q b f64) ∧
    (flowProxyHandler env now (Event.mk "POST" p h1 q b f64) net).sent =
      some ⟨chosenUrlOf env,
        JVal.stringify (flowEnvelope now (contentTypeOf (Event.mk "POST" p h1 q b f64))
          (flowProxyParse (getRawBody (Event.mk "POST" p h1 q b f64))))⟩ ∧
    (flowProxyHandler env now (Event.mk "POST" p h2 q b f64) net).sent =
      some ⟨chosenUrlOf env,
        JVal.stringify (flowEnvelope now (contentTypeOf (Event.mk "POST" p h2 q b f64))
          (flowProxyParse (getRawBody (Event.mk "POST" p h1 q b f64))))⟩ := by
  refine ⟨rfl, ?_, ?_⟩ <;> (cases net <;> rfl)
